import Mathlib

/-!
Verification development for the zoo Q&A voice/chat API
(`apps/api/app`): sentence segmentation and the streaming TTS event
generator (`routers/voice.py`), the input safety gate
(`services/safety.py`), the STT/LLM local-first fallback dispatchers and
availability probes (`services/stt.py`, `services/llm.py`), and the RAG
retrieval / follow-up extraction logic (`services/rag.py`).

Python strings are modelled as `List Char`, bytes as `List Nat`, floats
as `ℚ`.  External effects (LLM token stream, TTS synthesis, moderation
API, model initialization) are modelled as explicit oracle parameters;
an `Option`/`Except` `none`/`error` outcome models a raised exception.
-/

namespace Zoo

/-- ASCII whitespace as matched by Python's `\s` / `str.strip` (space,
tab, newline, carriage return, vertical tab, form feed). -/
def isPySpace (c : Char) : Bool :=
  c == ' ' || c == '\t' || c == '\n' || c == '\r' || c == '\x0b' || c == '\x0c'

/-- Sentence-ending punctuation of `SENTENCE_ENDINGS = re.compile(r'[.!?]+(?:\s|$)')`. -/
def isPunct (c : Char) : Bool :=
  c == '.' || c == '!' || c == '?'

/-- Python `str.strip()`: drop whitespace from both ends. -/
def pyStrip (l : List Char) : List Char :=
  (l.dropWhile isPySpace).reverse.dropWhile isPySpace |>.reverse

/-- Length of the leading run of `[.!?]` characters. -/
def punctRunLen : List Char → Nat
  | [] => 0
  | c :: cs => if isPunct c then punctRunLen cs + 1 else 0

/-- End offset of the first match of `[.!?]+(?:\s|$)` in the buffer
(`SENTENCE_ENDINGS.finditer` yields its matches left to right; greedy
`[.!?]+` takes the maximal punctuation run, then one `\s` character or
end of input; backtracking inside the run can never succeed, so a failed
attempt just advances the scan position). -/
def firstMatchEnd : List Char → Option Nat
  | [] => none
  | c :: cs =>
    if isPunct c then
      let r := punctRunLen (c :: cs)
      match (c :: cs).drop r with
      | [] => some r
      | a :: _ =>
        if isPySpace a then some (r + 1)
        else (firstMatchEnd cs).map (· + 1)
    else (firstMatchEnd cs).map (· + 1)

theorem punctRunLen_le : ∀ l : List Char, punctRunLen l ≤ l.length := by
  intro l
  induction l with
  | nil => simp [punctRunLen]
  | cons c cs ih =>
    simp only [punctRunLen, List.length_cons]
    split <;> omega

theorem firstMatchEnd_bounds :
    ∀ l : List Char, ∀ e, firstMatchEnd l = some e → 1 ≤ e ∧ e ≤ l.length := by
  intro l
  induction l with
  | nil => intro e h; simp [firstMatchEnd] at h
  | cons c cs ih =>
    intro e h
    have hrun : punctRunLen (c :: cs) ≤ (c :: cs).length := punctRunLen_le _
    simp only [firstMatchEnd] at h
    split at h
    · next hp =>
      have hrunpos : 1 ≤ punctRunLen (c :: cs) := by
        simp [punctRunLen, hp]
      split at h
      · next hd =>
        simp only [Option.some.injEq] at h
        omega
      · next a rest hd =>
        have hlen : (c :: cs).length - punctRunLen (c :: cs) = rest.length + 1 := by
          have := congrArg List.length hd
          simpa using this
        split at h
        · simp only [Option.some.injEq] at h
          omega
        · rcases he : firstMatchEnd cs with _ | e'
          · rw [he] at h; simp at h
          · rw [he] at h
            simp only [Option.map_some', Option.some.injEq] at h
            have := ih e' he
            simp only [List.length_cons]
            omega
    · rcases he : firstMatchEnd cs with _ | e'
      · rw [he] at h; simp at h
      · rw [he] at h
        simp only [Option.map_some', Option.some.injEq] at h
        have := ih e' he
        simp only [List.length_cons]
        omega

/-- The raw (untrimmed) spans between successive match ends of
`SENTENCE_ENDINGS`, plus the remainder after the last match.  The span
`buffer[last_end:end_pos]` of one match becomes one element; the tail
with no further match is the remainder. -/
def extractSpans (l : List Char) : List (List Char) × List Char :=
  match h : firstMatchEnd l with
  | none => ([], l)
  | some e =>
    have h1 : 1 ≤ e := (firstMatchEnd_bounds l e h).1
    have hne : l ≠ [] := by
      intro hnil; rw [hnil] at h; simp [firstMatchEnd] at h
    have : (l.drop e).length < l.length := by
      have hlen : 0 < l.length := List.length_pos.mpr hne
      simp only [List.length_drop]
      omega
    let p := extractSpans (l.drop e)
    (l.take e :: p.1, p.2)
termination_by l.length

/-- `extract_sentences` from `routers/voice.py`: each span is stripped,
empty results are dropped, and the unmatched tail is returned as the
remaining buffer. -/
def extract_sentences (buffer : List Char) : List (List Char) × List Char :=
  let p := extractSpans buffer
  ((p.1.map pyStrip).filter (fun s => !s.isEmpty), p.2)

theorem extractSpans_flatten :
    ∀ l : List Char, (extractSpans l).1.flatten ++ (extractSpans l).2 = l := by
  have H : ∀ n, ∀ l : List Char, l.length = n →
      (extractSpans l).1.flatten ++ (extractSpans l).2 = l := by
    intro n
    induction n using Nat.strong_induction_on with
    | _ n ih =>
      intro l hl
      rw [extractSpans]
      split
      · simp
      next e h =>
        dsimp only
        have h1 : 1 ≤ e := (firstMatchEnd_bounds l e h).1
        have hne : l ≠ [] := by
          intro hnil; rw [hnil] at h; simp [firstMatchEnd] at h
        have hlen : 0 < l.length := List.length_pos.mpr hne
        have hlt : (l.drop e).length < l.length := by
          simp only [List.length_drop]; omega
        have hrec := ih (l.drop e).length (by omega) (l.drop e) rfl
        simp only [List.flatten_cons, List.append_assoc, hrec, List.take_append_drop]
  exact fun l => H l.length l rfl

theorem extract_sentences_rem (buffer : List Char) :
    (extract_sentences buffer).2 = (extractSpans buffer).2 := rfl

theorem extractSpans_none (l : List Char) (h : firstMatchEnd l = none) :
    extractSpans l = ([], l) := by
  rw [extractSpans]
  split
  · rfl
  next e he => rw [h] at he; exact absurd he (by simp)

theorem extractSpans_some (l : List Char) (e : Nat) (h : firstMatchEnd l = some e) :
    extractSpans l =
      (l.take e :: (extractSpans (l.drop e)).1, (extractSpans (l.drop e)).2) := by
  rw [extractSpans]
  split
  next he => rw [h] at he; exact absurd he (by simp)
  next e2 he =>
    rw [h] at he
    injection he with he2
    subst he2
    rfl

/-- Fuelled restatement of `extractSpans` (each match consumes at least
one character, so `l.length` steps always suffice); used only to
evaluate the well-founded recursion on concrete buffers. -/
def extractSpansF : Nat → List Char → List (List Char) × List Char
  | fuel, l =>
    match firstMatchEnd l with
    | none => ([], l)
    | some e =>
      match fuel with
      | 0 => ([], l)
      | fuel + 1 =>
        let p := extractSpansF fuel (l.drop e)
        (l.take e :: p.1, p.2)

theorem extractSpansF_eq :
    ∀ fuel (l : List Char), l.length ≤ fuel → extractSpansF fuel l = extractSpans l := by
  intro fuel
  induction fuel with
  | zero =>
    intro l h
    have hl : l = [] := List.length_eq_zero.mp (Nat.le_zero.mp h)
    subst hl
    rw [extractSpansF, extractSpans]
    simp [firstMatchEnd]
  | succ n ih =>
    intro l h
    rw [extractSpansF]
    split
    next he => rw [extractSpans_none l he]
    next e he =>
      have h1 : 1 ≤ e := (firstMatchEnd_bounds l e he).1
      have hle : (l.drop e).length ≤ n := by
        simp only [List.length_drop]; omega
      rw [extractSpans_some l e he]
      simp only [ih (l.drop e) hle]

theorem extract_sentences_evalF (buffer : List Char) :
    extract_sentences buffer =
      (((extractSpansF buffer.length buffer).1.map pyStrip).filter
        (fun s => !s.isEmpty),
       (extractSpansF buffer.length buffer).2) := by
  rw [extract_sentences, extractSpansF_eq buffer.length buffer (Nat.le_refl _)]

/-- Does `needle` begin `hay`?  (Helper for Python's `in` operator.) -/
def leadsWith : List Char → List Char → Bool
  | [], _ => true
  | _ :: _, [] => false
  | a :: as, b :: bs => a == b && leadsWith as bs

/-- Python's substring test `needle in hay`. -/
def containsSub (needle : List Char) : List Char → Bool
  | [] => needle.isEmpty
  | b :: bs => leadsWith needle (b :: bs) || containsSub needle bs

/-- The trailing marker that starts the suggested follow-up questions
section (`"Want to explore more?" in buffer` in `generate_audio_stream`). -/
def followupMarker : List Char := "Want to explore more?".toList

/-- One server-sent event of the `/voice/tts/stream` generator.  `chunk`
stands for the synthesized audio bytes (the base64 encoding step is a
bijection and is not modelled). -/
inductive SEvent where
  | audio (chunk : List Nat) (sentence : List Char) (index : Nat)
  | done (total_sentences : Nat) (sources : List String)
  | error (message : String)
deriving DecidableEq, Repr

/-- The mutable locals of `generate_audio_stream`: the unconsumed text
`buffer`, `sentence_index`, the `skip_tts` flag, and the number of TTS
calls made so far (used only to index the TTS oracle). -/
structure GenState where
  buffer : List Char
  idx : Nat
  skip : Bool
  calls : Nat
deriving DecidableEq, Repr

/-- A TTS oracle: the outcome of the k-th call of
`_tts_service.synthesize_kokoro` in this request; `none` models the call
raising an exception. -/
def TTSOracle := Nat → List Char → Option (List Nat)

/-- The per-sentence loop of `generate_audio_stream`: each sentence with
non-empty `strip()` is synthesized when not in skip mode; a successful
synthesis yields an `audio` event carrying the current `sentence_index`,
which is incremented only then; a failed synthesis is logged and the
loop continues with the next sentence. -/
def runSentences (tts : TTSOracle) (skip : Bool) :
    List (List Char) → Nat → Nat → List SEvent × Nat × Nat
  | [], idx, calls => ([], idx, calls)
  | s :: ss, idx, calls =>
    if !(pyStrip s).isEmpty && !skip then
      match tts calls s with
      | some b =>
        let r := runSentences tts skip ss (idx + 1) (calls + 1)
        (SEvent.audio b s idx :: r.1, r.2)
      | none => runSentences tts skip ss idx (calls + 1)
    else runSentences tts skip ss idx calls

/-- One iteration of `for chunk in generate_response_stream(...)`: the
chunk is appended to the buffer; if the follow-up marker now occurs in
the buffer, `skip_tts` is switched on; then complete sentences are
extracted and fed through the per-sentence loop. -/
def stepChunk (tts : TTSOracle) (st : GenState) (chunk : List Char) :
    List SEvent × GenState :=
  let buf := st.buffer ++ chunk
  let skip := if containsSub followupMarker buf then true else st.skip
  let p := extract_sentences buf
  let r := runSentences tts skip p.1 st.idx st.calls
  (r.1, ⟨p.2, r.2.1, skip, r.2.2⟩)

/-- The whole `for chunk in ...` loop. -/
def runChunks (tts : TTSOracle) (st : GenState) :
    List (List Char) → List SEvent × GenState
  | [] => ([], st)
  | c :: cs =>
    let r := stepChunk tts st c
    let r2 := runChunks tts r.2 cs
    (r.1 ++ r2.1, r2.2)

/-- After the source stream ends: the remaining buffer, if its `strip()`
is non-empty and not in skip mode, is synthesized as a final sentence
(failure logged and ignored); then a `done` event carrying
`total_sentences = sentence_index` and the sources closes the stream. -/
def finalize (tts : TTSOracle) (st : GenState) (srcs : List String) :
    List SEvent :=
  let rem := pyStrip st.buffer
  let r :=
    if !rem.isEmpty && !st.skip then
      match tts st.calls rem with
      | some b => ([SEvent.audio b rem st.idx], st.idx + 1)
      | none => ([], st.idx)
    else ([], st.idx)
  r.1 ++ [SEvent.done r.2 srcs]

/-- The event generator of `POST /voice/tts/stream`
(`generate_audio_stream` in `routers/voice.py`).  `chunks` are the text
fragments delivered by the LLM stream; `streamErr = some m` models the
stream (or any code outside the per-sentence `try`) raising with message
`m` after those chunks, in which case the outer `except` emits one
terminal `error` event and the generator stops. -/
def generate_audio_stream (tts : TTSOracle) (chunks : List (List Char))
    (streamErr : Option String) (srcs : List String) : List SEvent :=
  let r := runChunks tts ⟨[], 0, false, 0⟩ chunks
  match streamErr with
  | some m => r.1 ++ [SEvent.error m]
  | none => r.1 ++ finalize tts r.2 srcs

/-- `audioFrom i [t₀, t₁, …]` is the event list
`[audio t₀ i, audio t₁ (i+1), …]`: consecutive indices starting at `i`. -/
def audioFrom (i : Nat) : List (List Nat × List Char) → List SEvent
  | [] => []
  | t :: ts => SEvent.audio t.1 t.2 i :: audioFrom (i + 1) ts

/-- The `index` fields of the `audio` events of a trace, in order. -/
def audioIndices : List SEvent → List Nat
  | [] => []
  | SEvent.audio _ _ i :: r => i :: audioIndices r
  | SEvent.done _ _ :: r => audioIndices r
  | SEvent.error _ :: r => audioIndices r

theorem audioFrom_append (a : List (List Nat × List Char)) :
    ∀ i b, audioFrom i (a ++ b) = audioFrom i a ++ audioFrom (i + a.length) b := by
  induction a with
  | nil => simp [audioFrom]
  | cons t ts ih =>
    intro i b
    simp only [List.cons_append, audioFrom, List.length_cons, List.append_eq, ih]
    have h : i + 1 + ts.length = i + (ts.length + 1) := by omega
    rw [h]

theorem audioIndices_audioFrom (au : List (List Nat × List Char)) :
    ∀ i rest, audioIndices (audioFrom i au ++ rest) =
      List.range' i au.length ++ audioIndices rest := by
  induction au with
  | nil => simp [audioFrom, List.range']
  | cons t ts ih =>
    intro i rest
    simp only [audioFrom, List.cons_append, List.append_eq, audioIndices]
    rw [ih]
    simp [List.range'_succ]

theorem runSentences_spec (tts : TTSOracle) (skip : Bool) :
    ∀ (ss : List (List Char)) (idx calls : Nat),
      ∃ au : List (List Nat × List Char),
        (runSentences tts skip ss idx calls).1 = audioFrom idx au ∧
        (runSentences tts skip ss idx calls).2.1 = idx + au.length := by
  intro ss
  induction ss with
  | nil => intro idx calls; exact ⟨[], rfl, by simp [runSentences]⟩
  | cons s ss ih =>
    intro idx calls
    rw [runSentences]
    split
    · rcases h : tts calls s with _ | b
      · exact ih idx (calls + 1)
      · obtain ⟨au, h1, h2⟩ := ih (idx + 1) (calls + 1)
        refine ⟨(b, s) :: au, ?_, ?_⟩
        · simp only [audioFrom, h1]
        · simp only [h2, List.length_cons]; omega
    · exact ih idx calls

theorem stepChunk_spec (tts : TTSOracle) (st : GenState) (c : List Char) :
    ∃ au : List (List Nat × List Char),
      (stepChunk tts st c).1 = audioFrom st.idx au ∧
      (stepChunk tts st c).2.idx = st.idx + au.length := by
  rw [stepChunk]
  exact runSentences_spec tts _ _ st.idx st.calls

theorem runChunks_spec (tts : TTSOracle) :
    ∀ (cs : List (List Char)) (st : GenState),
      ∃ au : List (List Nat × List Char),
        (runChunks tts st cs).1 = audioFrom st.idx au ∧
        (runChunks tts st cs).2.idx = st.idx + au.length := by
  intro cs
  induction cs with
  | nil => intro st; exact ⟨[], rfl, by simp [runChunks]⟩
  | cons c cs ih =>
    intro st
    obtain ⟨au1, h1, h2⟩ := stepChunk_spec tts st c
    obtain ⟨au2, h3, h4⟩ := ih (stepChunk tts st c).2
    refine ⟨au1 ++ au2, ?_, ?_⟩
    · rw [runChunks]
      simp only [h1, h3, h2, audioFrom_append]
    · rw [runChunks]
      simp only [h4, h2, List.length_append]
      omega

theorem finalize_spec (tts : TTSOracle) (st : GenState) (srcs : List String) :
    ∃ au : List (List Nat × List Char),
      finalize tts st srcs = audioFrom st.idx au ++
        [SEvent.done (st.idx + au.length) srcs] := by
  rw [finalize]
  split
  · rcases h : tts st.calls (pyStrip st.buffer) with _ | b
    · exact ⟨[], rfl⟩
    · exact ⟨[(b, pyStrip st.buffer)], rfl⟩
  · exact ⟨[], rfl⟩

/-- C1: every trace of the voice streaming endpoint's generator consists
of `audio` events whose indices are exactly `0, 1, …, n-1` in emission
order (no gaps, no duplicates, strictly increasing, whatever
per-sentence synthesis attempts failed), followed by exactly one
terminal event: a single `done` carrying `total_sentences = n` after all
`audio` events when the stream completes, or a single `error` event
(after which nothing follows) when it raises. -/
theorem C1_stream_event_invariants (tts : TTSOracle) (chunks : List (List Char))
    (streamErr : Option String) (srcs : List String) :
    ∃ au : List (List Nat × List Char),
      generate_audio_stream tts chunks streamErr srcs =
        audioFrom 0 au ++
          [match streamErr with
           | some m => SEvent.error m
           | none => SEvent.done au.length srcs] ∧
      audioIndices (generate_audio_stream tts chunks streamErr srcs) =
        List.range au.length := by
  obtain ⟨au1, h1, h2⟩ := runChunks_spec tts chunks ⟨[], 0, false, 0⟩
  rcases streamErr with _ | m
  · obtain ⟨au2, h3⟩ := finalize_spec tts (runChunks tts ⟨[], 0, false, 0⟩ chunks).2 srcs
    refine ⟨au1 ++ au2, ?_, ?_⟩
    · rw [generate_audio_stream]
      simp only [h1, h3, h2, List.length_append, audioFrom_append, List.append_assoc]
      norm_num
    · rw [generate_audio_stream]
      simp only [h1, h3, h2]
      rw [← List.append_assoc, ← audioFrom_append]
      rw [audioIndices_audioFrom]
      simp [audioIndices, List.range_eq_range']
  · refine ⟨au1, ?_, ?_⟩
    · rw [generate_audio_stream]
      simp only [h1]
    · rw [generate_audio_stream]
      simp only [h1, audioIndices_audioFrom]
      simp [audioIndices, List.range_eq_range']

/-! ## C3: incremental segmentation and lossless reconstruction -/

/-- Feeding chunks incrementally through `extract_sentences` exactly the
way `generate_audio_stream` does (`buffer = remainder ++ chunk` on each
iteration), collecting all emitted sentences and the final remainder. -/
def feedSentences : List (List Char) → List Char → List (List Char) × List Char
  | [], rem => ([], rem)
  | c :: cs, rem =>
    let p := extract_sentences (rem ++ c)
    let q := feedSentences cs p.2
    (p.1 ++ q.1, q.2)

/-- Same incremental feed, but collecting the raw (untrimmed) matched
spans instead of the stripped sentences. -/
def feedSpans : List (List Char) → List Char → List (List Char) × List Char
  | [], rem => ([], rem)
  | c :: cs, rem =>
    let p := extractSpans (rem ++ c)
    let q := feedSpans cs p.2
    (p.1 ++ q.1, q.2)

/-- C3 counterexample: the claim fails as stated.  On the single chunk
`"a. b."` the segmenter emits the *stripped* sentences `"a."` and
`"b."`, so concatenating emitted sentences plus the (empty) remainder
gives `"a.b."`, not the original input: the whitespace consumed by the
`[.!?]+(?:\s|$)` match and removed by `strip()` is lost. -/
theorem C3_counterexample :
    (feedSentences ["a. b.".toList] []).1.flatten ++
        (feedSentences ["a. b.".toList] []).2 ≠ "a. b.".toList := by
  simp only [feedSentences, extract_sentences_evalF]
  decide

/-- C3 (amended): for every input and every chunking, concatenating the
raw matched spans plus the final remainder reproduces the input
verbatim; the sentences actually emitted are exactly those spans with
surrounding whitespace stripped (empty results dropped), and both feeds
leave the same remainder.  So no text is lost or duplicated except the
whitespace trimmed from the ends of each matched span, and no sentence
is split across two emitted spans. -/
theorem C3_incremental_reconstruction (chunks : List (List Char)) (rem0 : List Char) :
    (feedSpans chunks rem0).1.flatten ++ (feedSpans chunks rem0).2 =
        rem0 ++ chunks.flatten ∧
    (feedSentences chunks rem0).1 =
        ((feedSpans chunks rem0).1.map pyStrip).filter (fun s => !s.isEmpty) ∧
    (feedSentences chunks rem0).2 = (feedSpans chunks rem0).2 := by
  induction chunks generalizing rem0 with
  | nil => simp [feedSentences, feedSpans]
  | cons c cs ih =>
    obtain ⟨ih1, ih2, ih3⟩ := ih (extractSpans (rem0 ++ c)).2
    refine ⟨?_, ?_, ?_⟩
    · rw [feedSpans]
      simp only [List.flatten_append, List.append_assoc, List.flatten_cons]
      rw [ih1, ← List.append_assoc, extractSpans_flatten]
      simp
    · rw [feedSentences, feedSpans]
      dsimp only [extract_sentences]
      simp only [List.map_append, List.filter_append, ih2]
    · rw [feedSentences, feedSpans]
      dsimp only [extract_sentences]
      exact ih3

/-! ## C4: the follow-up marker switches off synthesis -/

/-- A TTS oracle whose synthesis always succeeds. -/
def ttsAlwaysOk : TTSOracle := fun _ _ => some [0]

/-- A single LLM chunk in which the follow-up marker is immediately
followed by a further sentence. -/
def c4Chunk : List Char := "Want to explore more? What do lions eat?".toList

/-- C4 counterexample: the claim fails as stated.  Once the marker
`"Want to explore more?"` appears in the buffer, subsequent sentences
are *not* delivered to the caller at all: the endpoint's only
text-carrying events are `audio` events, and here the post-marker
sentence `"What do lions eat?"` is extracted by the segmenter but the
whole trace is just `[done 0]` — no event of any kind mentions it, so it
is neither synthesized nor delivered as text. -/
theorem C4_counterexample :
    generate_audio_stream ttsAlwaysOk [c4Chunk] none [] = [SEvent.done 0 []] ∧
    "What do lions eat?".toList ∈ (extract_sentences c4Chunk).1 ∧
    containsSub followupMarker c4Chunk = true := by
  refine ⟨?_, ?_, ?_⟩
  · simp only [generate_audio_stream, runChunks, stepChunk, finalize,
      extract_sentences_evalF, runSentences]
    decide
  · simp only [extract_sentences_evalF]
    decide
  · decide

theorem runSentences_skip (tts : TTSOracle) :
    ∀ (ss : List (List Char)) (idx calls : Nat),
      runSentences tts true ss idx calls = ([], idx, calls) := by
  intro ss
  induction ss with
  | nil => intro idx calls; rfl
  | cons s ss ih =>
    intro idx calls
    rw [runSentences]
    simp only [Bool.not_true, Bool.and_false, if_neg]
    exact ih idx calls

theorem stepChunk_skip (tts : TTSOracle) (st : GenState) (c : List Char)
    (h : st.skip = true) :
    (stepChunk tts st c).1 = [] ∧ (stepChunk tts st c).2.skip = true ∧
    (stepChunk tts st c).2.idx = st.idx := by
  rw [stepChunk]
  have hs : (if containsSub followupMarker (st.buffer ++ c) then true else st.skip)
      = true := by
    split <;> simp [h]
  refine ⟨?_, ?_, ?_⟩ <;> simp only [hs, runSentences_skip]

theorem runChunks_skip (tts : TTSOracle) :
    ∀ (cs : List (List Char)) (st : GenState), st.skip = true →
      (runChunks tts st cs).1 = [] ∧ (runChunks tts st cs).2.skip = true ∧
      (runChunks tts st cs).2.idx = st.idx := by
  intro cs
  induction cs with
  | nil => intro st h; exact ⟨rfl, h, rfl⟩
  | cons c cs ih =>
    intro st h
    obtain ⟨h1, h2, h3⟩ := stepChunk_skip tts st c h
    obtain ⟨h4, h5, h6⟩ := ih (stepChunk tts st c).2 h2
    rw [runChunks]
    refine ⟨?_, h5, ?_⟩
    · dsimp only
      rw [h1, h4]
      rfl
    · dsimp only
      rw [h6, h3]

/-- C4 (amended): once the follow-up marker appears in the accumulated
buffer, the chunk in which it first appears and all subsequent
processing emit no events at all: no subsequent sentence is sent to TTS
(no `audio` event is produced for it), the final remainder is not
synthesized, and the stream closes with `done` at the current count — so
the synthesized audio covers only sentences emitted before the marker
appeared.  (Contrary to the claim, skipped sentences are not delivered
to the caller as text either: this endpoint has no text events.) -/
theorem C4_skip_mode (tts : TTSOracle) (st : GenState)
    (chunks : List (List Char)) (c : List Char) (srcs : List String) :
    (st.skip = true →
      (runChunks tts st chunks).1 = [] ∧
      finalize tts (runChunks tts st chunks).2 srcs =
        [SEvent.done st.idx srcs]) ∧
    (containsSub followupMarker (st.buffer ++ c) = true →
      (stepChunk tts st c).1 = [] ∧ (stepChunk tts st c).2.skip = true) := by
  constructor
  · intro h
    obtain ⟨h1, h2, h3⟩ := runChunks_skip tts chunks st h
    refine ⟨h1, ?_⟩
    rw [finalize]
    simp [h2, h3]
  · intro h
    rw [stepChunk]
    constructor
    · simp [h, runSentences_skip]
    · simp [h]

/-- C4 witness: the amended theorem applied to a concrete in-skip-mode
state and a concrete marker-bearing chunk. -/
theorem C4_skip_mode_witness :
    ((runChunks ttsAlwaysOk ⟨[], 3, true, 3⟩ [" Next.".toList]).1 = [] ∧
      finalize ttsAlwaysOk
        (runChunks ttsAlwaysOk ⟨[], 3, true, 3⟩ [" Next.".toList]).2 [] =
        [SEvent.done 3 []]) ∧
    ((stepChunk ttsAlwaysOk ⟨[], 0, false, 0⟩ c4Chunk).1 = [] ∧
      (stepChunk ttsAlwaysOk ⟨[], 0, false, 0⟩ c4Chunk).2.skip = true) :=
  ⟨(C4_skip_mode ttsAlwaysOk ⟨[], 3, true, 3⟩ [" Next.".toList] [] []).1 rfl,
   (C4_skip_mode ttsAlwaysOk ⟨[], 0, false, 0⟩ [] c4Chunk []).2 (by decide)⟩

/-! ## A small regex engine

`services/safety.py` and `services/rag.py` use `re.search`/`re.findall`
with a fixed set of patterns.  The engine below models exactly the
constructs those patterns use: character classes, literals
(case-sensitive and case-insensitive for `re.IGNORECASE`), greedy
`*`/`+`/`{n}` over classes, `?`, alternation, sequencing, a greedy `+`
over a composite regex, `\b`, `$` (equivalent to end-of-input for the
patterns at hand, since `\s`/`.`-based alternatives always fire before
the pre-final-newline case of `$`), and the one negative lookahead
`(?!a guide|an assistant)`.  A match attempt returns the list of
possible continuations `(previous character, remaining input)` in
Python's backtracking preference order (greedy first, left alternative
first), so the head of the list corresponds to `re.search`'s match. -/

/-- Python `\w` (ASCII view): letters, digits, underscore. -/
def isWordChar (c : Char) : Bool := c.isAlphanum || c == '_'

/-- Python `\d` (ASCII view). -/
def isDigitChar (c : Char) : Bool := c.isDigit

/-- Python `.` without `re.DOTALL`: any character except newline. -/
def isDotChar (c : Char) : Bool := c != '\n'

/-- Python `str.lower()` (ASCII view). -/
def lowerStr (l : List Char) : List Char := l.map Char.toLower

/-- Case-insensitive prefix test (for the negative lookahead). -/
def startsWithCI : List Char → List Char → Bool
  | [], _ => true
  | _ :: _, [] => false
  | a :: as, b :: bs => a.toLower == b.toLower && startsWithCI as bs

inductive RE where
  | cls (p : Char → Bool)
  | lit (s : List Char)
  | litCI (s : List Char)
  | seq (a b : RE)
  | alt (a b : RE)
  | starCls (p : Char → Bool)
  | plusCls (p : Char → Bool)
  | repCls (n : Nat) (p : Char → Bool)
  | opt (a : RE)
  | wordB
  | eoi
  | negLookCI (s1 s2 : List Char)
  | plus (a : RE)
  | plusClsL (p : Char → Bool)

/-- A continuation: the character just before the current position (for
`\b`) and the remaining input, which never grows. -/
abbrev Conts (l : List Char) : Type :=
  List (Option Char × {t : List Char // t.length ≤ l.length})

theorem lenLeCons {α : Type} {c : α} {cs : List α} :
    cs.length ≤ (c :: cs).length := Nat.le_succ _

def weakenC {l l' : List Char} (h : l'.length ≤ l.length) :
    (Option Char × {t : List Char // t.length ≤ l'.length}) →
    (Option Char × {t : List Char // t.length ≤ l.length}) :=
  fun c => (c.1, ⟨c.2.1, le_trans c.2.2 h⟩)

/-- Consume a literal. -/
def consume : (s : List Char) → Option Char → (l : List Char) →
    Option (Option Char × {t : List Char // t.length ≤ l.length})
  | [], prev, l => some (prev, ⟨l, le_refl _⟩)
  | _ :: _, _, [] => none
  | a :: as, _, c :: cs =>
    if a == c then (consume as (some c) cs).map (weakenC lenLeCons) else none

/-- Consume a literal, case-insensitively. -/
def consumeCI : (s : List Char) → Option Char → (l : List Char) →
    Option (Option Char × {t : List Char // t.length ≤ l.length})
  | [], prev, l => some (prev, ⟨l, le_refl _⟩)
  | _ :: _, _, [] => none
  | a :: as, _, c :: cs =>
    if a.toLower == c.toLower then
      (consumeCI as (some c) cs).map (weakenC lenLeCons)
    else none

/-- Continuations of a lazy `[class]+?`, shortest first. -/
def plusContsL (p : Char → Bool) : Option Char → (l : List Char) → Conts l
  | _, [] => []
  | _, c :: cs =>
    if p c then
      (some c, ⟨cs, lenLeCons⟩) :: (plusContsL p (some c) cs).map (weakenC lenLeCons)
    else []

/-- Continuations of a greedy `[class]*`, longest first. -/
def starConts (p : Char → Bool) : Option Char → (l : List Char) → Conts l
  | prev, [] => [(prev, ⟨[], le_refl _⟩)]
  | prev, c :: cs =>
    if p c then
      (starConts p (some c) cs).map (weakenC lenLeCons) ++
        [(prev, ⟨c :: cs, le_refl _⟩)]
    else [(prev, ⟨c :: cs, le_refl _⟩)]

/-- Consume exactly `n` characters of a class (`[class]{n}`). -/
def consumeNCls : (n : Nat) → (p : Char → Bool) → Option Char → (l : List Char) →
    Option (Option Char × {t : List Char // t.length ≤ l.length})
  | 0, _, prev, l => some (prev, ⟨l, le_refl _⟩)
  | _ + 1, _, _, [] => none
  | n + 1, p, _, c :: cs =>
    if p c then (consumeNCls n p (some c) cs).map (weakenC lenLeCons) else none

def isWordOpt : Option Char → Bool
  | none => false
  | some c => isWordChar c

/-- Python `\b`: a word character on exactly one side of the position. -/
def atBoundary (prev : Option Char) (l : List Char) : Bool :=
  isWordOpt prev != (match l with | [] => false | c :: _ => isWordChar c)

/-- One layer of the matcher, structurally recursive on the regex; the
`self` argument is the matcher used for the back-edge of the composite
greedy `plus`, which is only ever taken after consuming at least one
character. -/
def matchesFromB
    (self : (r : RE) → Option Char → (l' : List Char) → Conts l') :
    (r : RE) → Option Char → (l : List Char) → Conts l
  | .cls _, _, [] => []
  | .cls p, _, c :: cs =>
    if p c then [(some c, ⟨cs, lenLeCons⟩)] else []
  | .lit s, prev, l => (consume s prev l).toList
  | .litCI s, prev, l => (consumeCI s prev l).toList
  | .seq a b, prev, l =>
    (matchesFromB self a prev l).flatMap (fun c =>
      (matchesFromB self b c.1 c.2.1).map (weakenC c.2.2))
  | .alt a b, prev, l => matchesFromB self a prev l ++ matchesFromB self b prev l
  | .starCls p, prev, l => starConts p prev l
  | .plusCls _, _, [] => []
  | .plusCls p, _, c :: cs =>
    if p c then (starConts p (some c) cs).map (weakenC lenLeCons) else []
  | .repCls n p, prev, l => (consumeNCls n p prev l).toList
  | .opt a, prev, l => matchesFromB self a prev l ++ [(prev, ⟨l, le_refl _⟩)]
  | .wordB, prev, l => if atBoundary prev l then [(prev, ⟨l, le_refl _⟩)] else []
  | .eoi, prev, [] => [(prev, ⟨[], le_refl _⟩)]
  | .eoi, _, _ :: _ => []
  | .negLookCI s1 s2, prev, l =>
    if startsWithCI s1 l || startsWithCI s2 l then [] else [(prev, ⟨l, le_refl _⟩)]
  | .plus a, prev, l =>
    (matchesFromB self a prev l).flatMap (fun c =>
      (if c.2.1.length < l.length then
        (self (.plus a) c.1 c.2.1).map (weakenC c.2.2)
      else []) ++ [c])
  | .plusClsL p, prev, l => plusContsL p prev l

/-- Fuelled knot-tying: the fuel is spent only on `plus` back-edges,
each of which has strictly shortened the input, so `l.length + 1` fuel
is always enough (`matchesFromFuel_irrel`). -/
def matchesFromFuel : Nat → (r : RE) → Option Char → (l : List Char) → Conts l
  | 0, _, _, _ => []
  | n + 1, r, prev, l => matchesFromB (matchesFromFuel n) r prev l

/-- All backtracking continuations of a match of `r` starting exactly at
the current position, in Python's preference order. -/
def matchesFrom (r : RE) (prev : Option Char) (l : List Char) : Conts l :=
  matchesFromFuel (l.length + 1) r prev l

theorem matchesFromB_ext
    (self1 self2 : (r : RE) → Option Char → (l' : List Char) → Conts l') :
    ∀ (r : RE) (prev : Option Char) (l : List Char),
      (∀ (r' : RE) (p' : Option Char) (l' : List Char), l'.length < l.length →
        self1 r' p' l' = self2 r' p' l') →
      matchesFromB self1 r prev l = matchesFromB self2 r prev l := by
  intro r
  induction r with
  | cls p => intro prev l _; cases l <;> rfl
  | lit s => intro prev l _; rfl
  | litCI s => intro prev l _; rfl
  | seq a b iha ihb =>
    intro prev l h
    simp only [matchesFromB]
    rw [iha prev l h]
    congr 1
    funext c
    rw [ihb c.1 c.2.1 (fun r' p' l' hl => h r' p' l' (lt_of_lt_of_le hl c.2.2))]
  | alt a b iha ihb =>
    intro prev l h
    simp only [matchesFromB, iha prev l h, ihb prev l h]
  | starCls p => intro prev l _; rfl
  | plusCls p => intro prev l _; cases l <;> rfl
  | repCls n p => intro prev l _; rfl
  | opt a iha =>
    intro prev l h
    simp only [matchesFromB, iha prev l h]
  | wordB => intro prev l _; rfl
  | eoi => intro prev l _; cases l <;> rfl
  | negLookCI s1 s2 => intro prev l _; rfl
  | plus a iha =>
    intro prev l h
    simp only [matchesFromB]
    rw [iha prev l h]
    congr 1
    funext c
    by_cases hc : c.2.1.length < l.length
    · rw [if_pos hc, if_pos hc, h (.plus a) c.1 c.2.1 hc]
    · rw [if_neg hc, if_neg hc]
  | plusClsL p => intro prev l _; rfl

/-- The fuel is irrelevant as soon as it exceeds the input length: the
back-edge is only taken on strictly shorter inputs. -/
theorem matchesFromFuel_irrel :
    ∀ (n m : Nat) (r : RE) (prev : Option Char) (l : List Char),
      l.length < n → l.length < m →
      matchesFromFuel n r prev l = matchesFromFuel m r prev l := by
  intro n
  induction n using Nat.strong_induction_on with
  | _ n ih =>
    intro m r prev l hn hm
    rcases n with _ | n'
    · omega
    rcases m with _ | m'
    · omega
    rw [matchesFromFuel, matchesFromFuel]
    apply matchesFromB_ext
    intro r' p' l' hl
    exact ih n' (by omega) m' r' p' l' (by omega) (by omega)

/-- So `matchesFrom`'s fuel choice `l.length + 1` is exact. -/
theorem matchesFrom_fuel (n : Nat) (r : RE) (prev : Option Char) (l : List Char)
    (h : l.length < n) : matchesFromFuel n r prev l = matchesFrom r prev l :=
  matchesFromFuel_irrel n (l.length + 1) r prev l h (Nat.lt_succ_self _)

/-- `re.search(r, text)` viewed as a Boolean: try every start position
left to right. -/
def reSearchFrom (r : RE) : Option Char → List Char → Bool
  | prev, [] => !(matchesFrom r prev []).isEmpty
  | prev, c :: cs =>
    !(matchesFrom r prev (c :: cs)).isEmpty || reSearchFrom r (some c) cs

def reSearch (r : RE) (l : List Char) : Bool := reSearchFrom r none l

/-! ## The safety gate (`services/safety.py`) -/

/-- Sequencing of a pattern list (`catR []` is the empty pattern ε). -/
def catR : List RE → RE
  | [] => .lit []
  | [r] => r
  | r :: rs => .seq r (catR rs)

/-- Alternation of a pattern list (`altAll []` never matches). -/
def altAll : List RE → RE
  | [] => .cls (fun _ => false)
  | [r] => r
  | r :: rs => .alt r (altAll rs)

/-- Result of a safety check (`SafetyResult` dataclass). -/
structure SafetyResult where
  is_safe : Bool
  reason : Option String := none
  categories : List String := []
deriving DecidableEq, Repr

/-- `[A-Za-z0-9._%+-]` (local part of the email pattern). -/
def emailLocalChar (c : Char) : Bool :=
  c.isAlpha || c.isDigit || c == '.' || c == '_' || c == '%' || c == '+' || c == '-'

/-- `[A-Za-z0-9.-]` (domain part of the email pattern). -/
def emailDomChar (c : Char) : Bool :=
  c.isAlpha || c.isDigit || c == '.' || c == '-'

/-- `[A-Z|a-z]` — as written in the source, the class also contains the
literal `|`. -/
def emailTldChar (c : Char) : Bool := c.isAlpha || c == '|'

/-- `\b[A-Za-z0-9._%+-]+@[A-Za-z0-9.-]+\.[A-Z|a-z]{2,}\b` -/
def emailRE : RE :=
  catR [.wordB, .plusCls emailLocalChar, .cls (· == '@'), .plusCls emailDomChar,
    .cls (· == '.'), .repCls 2 emailTldChar, .starCls emailTldChar, .wordB]

/-- `[-.]` (optional separator in the phone pattern). -/
def phoneSep (c : Char) : Bool := c == '-' || c == '.'

/-- `\b\d{3}[-.]?\d{3}[-.]?\d{4}\b` -/
def phoneRE : RE :=
  catR [.wordB, .repCls 3 isDigitChar, .opt (.cls phoneSep), .repCls 3 isDigitChar,
    .opt (.cls phoneSep), .repCls 4 isDigitChar, .wordB]

/-- `\b\d{3}-\d{2}-\d{4}\b` -/
def ssnRE : RE :=
  catR [.wordB, .repCls 3 isDigitChar, .lit ['-'], .repCls 2 isDigitChar,
    .lit ['-'], .repCls 4 isDigitChar, .wordB]

/-- `\b\d+\s+[\w\s]+(?:street|st|avenue|ave|road|rd|drive|dr|lane|ln|way|court|ct|boulevard|blvd)\b`
(searched with `re.IGNORECASE`, hence the case-insensitive literals). -/
def addressRE : RE :=
  catR [.wordB, .plusCls isDigitChar, .plusCls isPySpace,
    .plusCls (fun c => isWordChar c || isPySpace c),
    altAll [.litCI "street".toList, .litCI "st".toList, .litCI "avenue".toList,
      .litCI "ave".toList, .litCI "road".toList, .litCI "rd".toList,
      .litCI "drive".toList, .litCI "dr".toList, .litCI "lane".toList,
      .litCI "ln".toList, .litCI "way".toList, .litCI "court".toList,
      .litCI "ct".toList, .litCI "boulevard".toList, .litCI "blvd".toList],
    .wordB]

/-- `PII_PATTERNS`, in dict order. -/
def PII_PATTERNS : List (String × RE) :=
  [("email", emailRE), ("phone", phoneRE), ("ssn", ssnRE), ("address", addressRE)]

/-- `INJECTION_PATTERNS` — these are searched against `text.lower()`, so
plain literals suffice; note `\bDAN\b` keeps its upper-case literal
exactly as in the source. -/
def INJECTION_PATTERNS : List RE :=
  [catR [.lit "ignore".toList, .starCls isDotChar,
     altAll [.lit "previous".toList, .lit "above".toList, .lit "prior".toList],
     .starCls isDotChar,
     altAll [.lit "instruction".toList, .lit "prompt".toList]],
   catR [.lit "disregard".toList, .starCls isDotChar,
     altAll [.lit "rules".toList, .lit "guidelines".toList]],
   .lit "you are now".toList,
   .lit "pretend you".toList,
   .seq (.lit "act as ".toList) (.negLookCI "a guide".toList "an assistant".toList),
   .lit "roleplay".toList,
   .lit "jailbreak".toList,
   catR [.wordB, .lit "DAN".toList, .wordB],
   catR [.lit "bypass".toList, .starCls isDotChar,
     altAll [.lit "filter".toList, .lit "safety".toList]],
   .lit "system prompt".toList,
   catR [.lit "reveal".toList, .starCls isDotChar,
     altAll [.lit "instruction".toList, .lit "prompt".toList]]]

/-- `ZOO_KEYWORDS`. -/
def ZOO_KEYWORDS : List String :=
  ["animal", "zoo", "park", "leesburg", "feed", "pet", "visit",
   "habitat", "wild", "eat", "sleep", "play", "baby", "cute", "big", "small",
   "hello", "hi", "hey", "thanks", "help", "what", "how", "why", "tell", "about",
   "mammal", "bird", "reptile", "amphibian", "insect", "arachnid", "primate",
   "goat", "sheep", "pig", "donkey", "horse", "pony", "llama", "alpaca",
   "camel", "zebra", "deer", "nilgai", "zebu", "cow", "cattle",
   "rabbit", "bunny", "chinchilla", "hedgehog", "porcupine",
   "lemur", "monkey", "tamarin", "marmoset", "gibbon", "sloth",
   "wallaby", "kangaroo", "serval", "cat", "dog", "coati", "meerkat",
   "bear", "lion", "tiger", "elephant", "giraffe", "gorilla", "orangutan",
   "peacock", "peafowl", "turkey", "chicken", "duck", "goose",
   "emu", "ostrich", "crane", "parrot", "macaw", "cockatoo",
   "kookaburra", "raven", "crow", "hawk", "eagle", "owl",
   "snake", "python", "boa", "tortoise", "turtle", "lizard",
   "gecko", "skink", "tegu", "iguana", "chameleon",
   "frog", "toad", "salamander", "newt",
   "scorpion", "spider", "tarantula", "beetle", "cockroach", "millipede",
   "panda", "koala", "penguin", "dolphin", "shark", "octopus", "jellyfish"]

/-- `MAX_INPUT_LENGTH`. -/
def MAX_INPUT_LENGTH : Nat := 500

/-- One-pass splitter: `cur` is the reversed current word. -/
def splitWsGo : List Char → List Char → List (List Char)
  | cur, [] => if cur.isEmpty then [] else [cur.reverse]
  | cur, c :: cs =>
    if isPySpace c then
      if cur.isEmpty then splitWsGo [] cs
      else cur.reverse :: splitWsGo [] cs
    else splitWsGo (c :: cur) cs

/-- Python `str.split()` with no separator: words are the maximal
whitespace-free runs, with no empty entries. -/
def splitWs (l : List Char) : List (List Char) := splitWsGo [] l

/-- `check_pii`: scan the four PII patterns in dict order (all with
`re.IGNORECASE`, which only matters for the address literals) and fail
with the list of matched pattern types. -/
def check_pii (text : List Char) : SafetyResult :=
  let found := (PII_PATTERNS.filter (fun p => reSearch p.2 text)).map (·.1)
  if !found.isEmpty then
    ⟨false, some "Personal information detected - please don't share personal details",
      found⟩
  else ⟨true, none, []⟩

/-- `check_prompt_injection`: search each injection pattern against the
lower-cased text. -/
def check_prompt_injection (text : List Char) : SafetyResult :=
  if INJECTION_PATTERNS.any (fun r => reSearch r (lowerStr text)) then
    ⟨false, some "I didn't understand that. Can you ask about animals instead?",
      ["prompt_injection"]⟩
  else ⟨true, none, []⟩

/-- `check_on_topic`: inputs of at most 3 words are always accepted;
otherwise some zoo keyword must occur as a substring of the lower-cased
text. -/
def check_on_topic (text : List Char) : SafetyResult :=
  if (splitWs (lowerStr text)).length ≤ 3 then ⟨true, none, []⟩
  else if ZOO_KEYWORDS.any (fun kw => containsSub kw.toList (lowerStr text)) then
    ⟨true, none, []⟩
  else
    ⟨false,
      some "I love talking about animals! Ask me about the animals at Leesburg Animal Park!",
      ["off_topic"]⟩

/-- Outcome of a successful OpenAI moderation API call. -/
structure ModOutcome where
  flagged : Bool
  categories : List String
deriving DecidableEq, Repr

/-- `check_content_moderation`: empty/whitespace-only text passes; an
API exception (`api = none`) is caught and **fails open** (`is_safe =
True`, only logged); otherwise the flagged categories decide. -/
def check_content_moderation (text : List Char) (api : Option ModOutcome) :
    SafetyResult :=
  if (pyStrip text).isEmpty then ⟨true, none, []⟩
  else
    match api with
    | none => ⟨true, none, []⟩
    | some o =>
      if o.flagged then
        ⟨false, some "Content flagged by safety filter", o.categories⟩
      else ⟨true, none, []⟩

/-- `check_content_llamaguard`: `guard` is the raw response text of the
local LlamaGuard call (`none` models any raised exception, which the
caller handles); the verdict is safe iff the lower-cased stripped
response contains `"safe"` but not `"unsafe"`. -/
def check_content_llamaguard (guard : Option (List Char)) : Option SafetyResult :=
  match guard with
  | none => none
  | some resp =>
    let result := pyStrip (lowerStr resp)
    if containsSub "safe".toList result && !containsSub "unsafe".toList result then
      some ⟨true, none, []⟩
    else some ⟨false, some "Content flagged by safety filter", ["llamaguard"]⟩

/-- `validate_input`: length, prompt injection, PII, topic, then content
moderation (local LlamaGuard when `settings.llm_provider == "ollama"`,
any exception falling through to the OpenAI moderation endpoint), each
returning on the first failure. -/
def validate_input (text : List Char) (provider : String)
    (guard : Option (List Char)) (api : Option ModOutcome) : SafetyResult :=
  if text.length > MAX_INPUT_LENGTH then
    ⟨false, some "Message too long - please keep it under 500 characters", []⟩
  else
    let injection_result := check_prompt_injection text
    if !injection_result.is_safe then injection_result
    else
      let pii_result := check_pii text
      if !pii_result.is_safe then pii_result
      else
        let topic_result := check_on_topic text
        if !topic_result.is_safe then topic_result
        else
          match (if provider == "ollama" then check_content_llamaguard guard
                 else none) with
          | some r => r
          | none =>
            let moderation_result := check_content_moderation text api
            if !moderation_result.is_safe then moderation_result
            else ⟨true, none, []⟩

/-- C2: the input safety gate runs its checks strictly in order and
returns the first failure.  (a) Every input longer than 500 characters
gets the length rejection, whatever else it contains — no other check is
consulted.  (b) Every input within the length budget that passes the
injection check but contains a PII pattern gets exactly the PII check's
failure (carrying the PII categories) — in particular, even when the
text is also off-topic, the `off_topic` failure is never returned. -/
theorem C2_validate_input_order (text : List Char) (provider : String)
    (guard : Option (List Char)) (api : Option ModOutcome) :
    (text.length > MAX_INPUT_LENGTH →
      validate_input text provider guard api =
        ⟨false, some "Message too long - please keep it under 500 characters", []⟩) ∧
    (text.length ≤ MAX_INPUT_LENGTH →
      (check_prompt_injection text).is_safe = true →
      (check_pii text).is_safe = false →
      (check_on_topic text).is_safe = false →
      validate_input text provider guard api = check_pii text) := by
  constructor
  · intro h
    rw [validate_input, if_pos h]
  · intro h1 _h2 h3 _h4
    rw [validate_input, if_neg (by omega)]
    simp [_h2, h3]

/-- The length-overflow input of the C2 witness: 501 characters. -/
def c2LongText : List Char := List.replicate 501 'a'

/-- The C2 witness input: within budget, injection-free, contains an
email-shaped PII pattern, and has more than three words none of which
contains a zoo keyword (so the topic check would also fail). -/
def c2PiiText : List Char := "My email is a@b.com and I plan to travel soon".toList

set_option maxRecDepth 4000 in
theorem C2_validate_input_order_witness :
    (validate_input c2LongText "openai" none none =
      ⟨false, some "Message too long - please keep it under 500 characters", []⟩) ∧
    (validate_input c2PiiText "openai" none none = check_pii c2PiiText ∧
      check_pii c2PiiText =
        ⟨false, some "Personal information detected - please don't share personal details",
          ["email"]⟩ ∧
      (check_on_topic c2PiiText).is_safe = false) :=
  ⟨(C2_validate_input_order c2LongText "openai" none none).1 (by decide),
   (C2_validate_input_order c2PiiText "openai" none none).2 (by decide) (by decide)
      (by decide) (by decide),
   by decide, by decide⟩

/-- C7: the content-moderation check fails open.  Whenever the
moderation API call raises an infrastructure error (modelled by
`api = none`, the `except` branch), `check_content_moderation` returns
`is_safe = true` for every input text, so a moderation-infrastructure
failure never blocks the user or produces an unsafe verdict. -/
theorem C7_moderation_fails_open (text : List Char) :
    (check_content_moderation text none).is_safe = true := by
  rw [check_content_moderation]
  split <;> rfl

/-! ## Speech-to-text and LLM fallback dispatchers
(`services/stt.py`, `services/llm.py`) -/

/-- `STTService._detect_audio_format`: sniff the container signature of
the first bytes and return the matching file extension.  Bytes are
naturals; indexing past the end (impossible after the length guard)
defaults to 0. -/
def detect_audio_format (b : List Nat) : Option String :=
  if b.length < 12 then none
  else if b.take 4 = [0x52, 0x49, 0x46, 0x46] ∧
      (b.drop 8).take 4 = [0x57, 0x41, 0x56, 0x45] then some "wav"
  else if b.take 3 = [0x49, 0x44, 0x33] ∨
      (b.getD 0 0 = 0xFF ∧ Nat.land (b.getD 1 0) 0xE0 = 0xE0) then some "mp3"
  else if b.take 4 = [0x4F, 0x67, 0x67, 0x53] then some "ogg"
  else if b.take 4 = [0x1A, 0x45, 0xDF, 0xA3] then some "webm"
  else if b.take 4 = [0x66, 0x4C, 0x61, 0x43] then some "flac"
  else if 8 ≤ b.length ∧ (b.drop 4).take 4 = [0x66, 0x74, 0x79, 0x70] then some "m4a"
  else none

/-- The fixed string returned when the audio format is unrecognized. -/
def mockTranscription : String := "This is a mock transcription of your audio."

/-- `STTService.transcribe_openai`: when the format is not detected the
method returns the mock transcription without contacting OpenAI;
otherwise the Whisper API call (oracle `cloud`, `none` = raised
exception) decides.  The Boolean records whether the cloud API was
actually invoked. -/
def transcribe_openai (audio : List Nat) (cloud : Option String) :
    Option (String × Bool) :=
  match detect_audio_format audio with
  | none => some (mockTranscription, false)
  | some _ => cloud.map (fun t => (t, true))

/-- `STTService.transcribe`: if the local Faster-Whisper model is
available, try it first (`localRes = none` models `transcribe_local`
raising); any local failure is logged and falls through — is never
re-raised — to `transcribe_openai`, whose own failure propagates. -/
def transcribe (localAvail : Bool) (localRes : Option String)
    (audio : List Nat) (cloud : Option String) : Option (String × Bool) :=
  if localAvail then
    match localRes with
    | some t => some (t, false)
    | none => transcribe_openai audio cloud
  else transcribe_openai audio cloud

/-- `LLMService.generate`: Ollama first when configured and available
(`ollamaRes = none` models `generate_ollama` raising, which is caught),
otherwise — and on any Ollama failure — OpenAI
(`openaiRes = none` models `generate_openai` raising, which escapes). -/
def generate (provider : String) (ollamaAvail : Bool)
    (ollamaRes openaiRes : Option String) : Option String :=
  if provider == "ollama" && ollamaAvail then
    match ollamaRes with
    | some r => some r
    | none => openaiRes
  else openaiRes

/-- C5: the fallback dispatchers fail only if both attempts fail.  For
STT: a raising local attempt is not re-raised and the cloud path's
result is returned; an unavailable local model goes straight to the
cloud path; an error escapes only when the cloud path itself fails.
For the LLM: a raising (or skipped) Ollama attempt always yields the
OpenAI result; an unavailable or unconfigured local provider goes
straight to OpenAI; an error escapes only when the OpenAI attempt also
fails. -/
theorem C5_fallback_dispatch (localAvail : Bool) (localRes : Option String)
    (audio : List Nat) (cloud : Option String) (provider : String)
    (ollamaAvail : Bool) (ollamaRes openaiRes : Option String) :
    (localAvail = true → localRes = none →
      transcribe localAvail localRes audio cloud = transcribe_openai audio cloud) ∧
    (localAvail = false →
      transcribe localAvail localRes audio cloud = transcribe_openai audio cloud) ∧
    (transcribe localAvail localRes audio cloud = none →
      transcribe_openai audio cloud = none) ∧
    (ollamaRes = none →
      generate provider ollamaAvail ollamaRes openaiRes = openaiRes) ∧
    (provider ≠ "ollama" ∨ ollamaAvail = false →
      generate provider ollamaAvail ollamaRes openaiRes = openaiRes) ∧
    (generate provider ollamaAvail ollamaRes openaiRes = none →
      openaiRes = none) := by
  refine ⟨?_, ?_, ?_, ?_, ?_, ?_⟩
  · intro h1 h2
    rw [transcribe.eq_def, if_pos h1, h2]
  · intro h1
    rw [transcribe.eq_def, h1]
    simp
  · intro h
    rw [transcribe.eq_def] at h
    split at h
    · rcases localRes with _ | t
      · exact h
      · exact absurd h (by simp)
    · exact h
  · intro h
    rw [generate.eq_def, h]
    split <;> rfl
  · intro h
    rw [generate.eq_def]
    rcases h with h | h
    · rw [if_neg (by simp [h])]
    · rw [h]
      simp
  · intro h
    rw [generate.eq_def] at h
    split at h
    · rcases ollamaRes with _ | r
      · exact h
      · exact absurd h (by simp)
    · exact h

theorem C5_fallback_dispatch_witness :
    (transcribe true none [0] (some "hi there") =
      transcribe_openai [0] (some "hi there")) ∧
    (transcribe false (some "unused") [0] (some "hi there") =
      transcribe_openai [0] (some "hi there")) ∧
    (generate "ollama" true none (some "cloud answer") = some "cloud answer") ∧
    (generate "openai" false (some "unused") (some "cloud answer") =
      some "cloud answer") :=
  ⟨(C5_fallback_dispatch true none [0] (some "hi there") "openai" false none none).1
      rfl rfl,
   (C5_fallback_dispatch false (some "unused") [0] (some "hi there") "openai"
      false none none).2.1 rfl,
   (C5_fallback_dispatch false none [] none "ollama" true none
      (some "cloud answer")).2.2.2.1 rfl,
   (C5_fallback_dispatch false none [] none "openai" false (some "unused")
      (some "cloud answer")).2.2.2.2.1 (Or.inl (by decide))⟩

/-! ## Availability probes (`get_stt_model`, `is_ollama_available`) -/

/-- The module-level globals `_stt_model` / `_stt_model_error`. -/
structure STTCache where
  model : Option Nat := none
  err : Option String := none
deriving DecidableEq, Repr

/-- Python truthiness of an `Optional[str]`: `None` and `""` are falsy
(the source guards with `if _stt_model_error:`). -/
def pyTruthyOptStr : Option String → Bool
  | none => false
  | some s => !(s == "")

/-- `get_stt_model`: return `None` immediately when a previous failure
is cached (truthy error string); return the cached model when present;
otherwise run one initialization attempt (oracle `init`; `k` counts the
attempts consumed so far), caching the model on success and `str(e)` on
failure. -/
def get_stt_model (init : Nat → Except String Nat) (st : STTCache) (k : Nat) :
    Option Nat × STTCache × Nat :=
  if pyTruthyOptStr st.err then (none, st, k)
  else
    match st.model with
    | some m => (some m, st, k)
    | none =>
      match init k with
      | .ok m => (some m, ⟨some m, st.err⟩, k + 1)
      | .error e => (none, ⟨st.model, some e⟩, k + 1)

/-- `is_faster_whisper_available`. -/
def is_faster_whisper_available (init : Nat → Except String Nat)
    (st : STTCache) (k : Nat) : Bool × STTCache × Nat :=
  let r := get_stt_model init st k
  (r.1.isSome, r.2)

/-- `n` successive `get_stt_model` calls: the per-call results, the
final cache, and the attempt counter. -/
def sttRun (init : Nat → Except String Nat) :
    Nat → STTCache → Nat → List (Option Nat) × STTCache × Nat
  | 0, st, k => ([], st, k)
  | n + 1, st, k =>
    let r := get_stt_model init st k
    let rest := sttRun init n r.2.1 r.2.2
    (r.1 :: rest.1, rest.2)

/-- `n` successive calls starting from the fresh module state. -/
def sttCalls (init : Nat → Except String Nat) (n : Nat) :
    List (Option Nat) × STTCache × Nat :=
  sttRun init n ⟨none, none⟩ 0

/-- What the first call will return. -/
def sttFirst (init : Nat → Except String Nat) : Option Nat :=
  match init 0 with
  | .ok m => some m
  | .error _ => none

/-- The module-level global `_ollama_available` and
`check_ollama_health`: `probe k = some b` models the HTTP request
returning with `b = (status == 200)`, `none` models it raising. -/
def check_ollama_health (probe : Nat → Option Bool) (k : Nat) :
    Bool × Option Bool × Nat :=
  match probe k with
  | some ok => (ok, some ok, k + 1)
  | none => (false, some false, k + 1)

/-- `is_ollama_available`: probe only when the cached value is `None`,
then return `_ollama_available or False`. -/
def is_ollama_available (probe : Nat → Option Bool) (st : Option Bool) (k : Nat) :
    Bool × Option Bool × Nat :=
  match st with
  | none =>
    let r := check_ollama_health probe k
    (r.2.1.getD false, r.2.1, r.2.2)
  | some b => (b, some b, k)

def ollamaRun (probe : Nat → Option Bool) :
    Nat → Option Bool → Nat → List Bool × Option Bool × Nat
  | 0, st, k => ([], st, k)
  | n + 1, st, k =>
    let r := is_ollama_available probe st k
    let rest := ollamaRun probe n r.2.1 r.2.2
    (r.1 :: rest.1, rest.2)

def ollamaCalls (probe : Nat → Option Bool) (n : Nat) :
    List Bool × Option Bool × Nat :=
  ollamaRun probe n none 0

def ollamaFirst (probe : Nat → Option Bool) : Bool :=
  match probe 0 with
  | some ok => ok
  | none => false

/-- An initialization that always fails with an *empty* message
(e.g. `raise Exception()`, whose `str` is `""`). -/
def emptyMsgFailInit : Nat → Except String Nat := fun _ => Except.error ""

/-- C6 counterexample: the claim fails as stated.  When the first
initialization attempt fails with an exception whose `str` is empty, the
cached error `""` is *falsy*, so `if _stt_model_error:` does not
short-circuit and every subsequent call runs a fresh initialization
attempt: two calls consume two attempts, not at most one. -/
theorem C6_counterexample :
    (sttCalls emptyMsgFailInit 2).2.2 = 2 ∧
    ¬ (sttCalls emptyMsgFailInit 2).2.2 ≤ 1 := by
  constructor <;> decide

theorem sttRun_stable_err (init : Nat → Except String Nat) :
    ∀ n (st : STTCache) k, pyTruthyOptStr st.err = true →
      sttRun init n st k = (List.replicate n none, st, k) := by
  intro n
  induction n with
  | zero => intro st k _; rfl
  | succ n ih =>
    intro st k h
    rw [sttRun]
    simp only [get_stt_model, h, if_pos]
    rw [ih st k h]
    rfl

theorem sttRun_stable_model (init : Nat → Except String Nat) (m : Nat) :
    ∀ n (st : STTCache) k, st.err = none → st.model = some m →
      sttRun init n st k = (List.replicate n (some m), st, k) := by
  intro n
  induction n with
  | zero => intro st k _ _; rfl
  | succ n ih =>
    intro st k h1 h2
    rw [sttRun]
    simp only [get_stt_model, h1, h2, pyTruthyOptStr]
    rw [if_neg (by simp)]
    rw [ih st k h1 h2]
    rfl

theorem ollamaRun_stable (probe : Nat → Option Bool) (b : Bool) :
    ∀ n k, ollamaRun probe n (some b) k = (List.replicate n b, some b, k) := by
  intro n
  induction n with
  | zero => intro k; rfl
  | succ n ih =>
    intro k
    rw [ollamaRun]
    simp only [is_ollama_available]
    rw [ih k]
    rfl

/-- C6 (amended): provided a failed initialization caches a *non-empty*
error message (the `if _stt_model_error:` guard tests truthiness, so an
empty `str(e)` defeats the cache — see the counterexample), the STT
probe attempts initialization at most once per process lifetime: over
any `n` successive calls exactly `min n 1` attempts are consumed and
every call returns the first call's result (cached model or cached
unavailability).  The Ollama probe satisfies the same property
unconditionally. -/
theorem C6_probe_single_attempt (init : Nat → Except String Nat)
    (probe : Nat → Option Bool)
    (hne : ∀ k s, init k = Except.error s → s ≠ "") (n : Nat) :
    ((sttCalls init n).1 = List.replicate n (sttFirst init) ∧
      (sttCalls init n).2.2 = min n 1) ∧
    ((ollamaCalls probe n).1 = List.replicate n (ollamaFirst probe) ∧
      (ollamaCalls probe n).2.2 = min n 1) := by
  constructor
  · rcases n with _ | n
    · exact ⟨rfl, rfl⟩
    · rcases hi : init 0 with e | m
      · have he : e ≠ "" := hne 0 e hi
        have hg : get_stt_model init ⟨none, none⟩ 0 = (none, ⟨none, some e⟩, 1) := by
          simp [get_stt_model, pyTruthyOptStr, hi]
        rw [sttCalls, sttRun]
        dsimp only
        rw [hg]
        dsimp only
        rw [sttRun_stable_err init n ⟨none, some e⟩ 1 (by simp [pyTruthyOptStr, he])]
        refine ⟨?_, by simp only []; omega⟩
        simp [sttFirst, hi, List.replicate_succ]
      · have hg : get_stt_model init ⟨none, none⟩ 0 = (some m, ⟨some m, none⟩, 1) := by
          simp [get_stt_model, pyTruthyOptStr, hi]
        rw [sttCalls, sttRun]
        dsimp only
        rw [hg]
        dsimp only
        rw [sttRun_stable_model init m n ⟨some m, none⟩ 1 rfl rfl]
        refine ⟨?_, by simp only []; omega⟩
        simp [sttFirst, hi, List.replicate_succ]
  · rcases n with _ | n
    · exact ⟨rfl, rfl⟩
    · rcases hp : probe 0 with _ | b
      · have hg : is_ollama_available probe none 0 = (false, some false, 1) := by
          simp [is_ollama_available, check_ollama_health, hp]
        rw [ollamaCalls, ollamaRun]
        dsimp only
        rw [hg]
        dsimp only
        rw [ollamaRun_stable probe false n 1]
        refine ⟨?_, by simp only []; omega⟩
        simp [ollamaFirst, hp, List.replicate_succ]
      · have hg : is_ollama_available probe none 0 = (b, some b, 1) := by
          simp [is_ollama_available, check_ollama_health, hp]
        rw [ollamaCalls, ollamaRun]
        dsimp only
        rw [hg]
        dsimp only
        rw [ollamaRun_stable probe b n 1]
        refine ⟨?_, by simp only []; omega⟩
        simp [ollamaFirst, hp, List.replicate_succ]

/-- C6 witness: the amended theorem at an always-failing initializer
with a non-empty message and an always-raising health probe, over three
calls: one attempt each, every call unavailable. -/
theorem C6_probe_single_attempt_witness :
    (((sttCalls (fun _ => Except.error "no faster_whisper") 3).1 =
        List.replicate 3 none ∧
      (sttCalls (fun _ => Except.error "no faster_whisper") 3).2.2 = min 3 1) ∧
     ((ollamaCalls (fun _ => none) 3).1 = List.replicate 3 false ∧
      (ollamaCalls (fun _ => none) 3).2.2 = min 3 1)) :=
  C6_probe_single_attempt (fun _ => Except.error "no faster_whisper")
    (fun _ => none)
    (fun _ s h => by
      injection h with h2
      rw [← h2]
      decide) 3

/-- C10: for every audio input whose leading bytes match none of the
recognized container signatures, `transcribe_openai` does not call the
cloud provider at all and returns the fixed mock transcription; hence,
when the local model is unavailable, `transcribe` on such bytes always
succeeds with that fabricated text (whatever the cloud oracle would have
done). -/
theorem C10_mock_transcription (audio : List Nat) (cloud : Option String)
    (localRes : Option String)
    (h : detect_audio_format audio = none) :
    transcribe_openai audio cloud = some (mockTranscription, false) ∧
    transcribe false localRes audio cloud = some (mockTranscription, false) := by
  have h1 : transcribe_openai audio cloud = some (mockTranscription, false) := by
    rw [transcribe_openai, h]
  exact ⟨h1, by rw [transcribe.eq_def, if_neg (by simp)]; exact h1⟩

theorem C10_mock_transcription_witness :
    transcribe_openai (List.replicate 20 0) (some "real transcript") =
      some (mockTranscription, false) ∧
    transcribe false none (List.replicate 20 0) (some "real transcript") =
      some (mockTranscription, false) :=
  C10_mock_transcription (List.replicate 20 0) (some "real transcript") none
    (by decide)

/-! ## Context retrieval (`RAGService.search_context`) -/

/-- The `metadata` dict of a LanceDB row (fields read with
`metadata.get(..., default)`). -/
structure MetaD where
  animal_name : Option String := none
  title : Option String := none
  url : Option String := none
deriving DecidableEq, Repr

/-- One LanceDB search result row: `metadata = none` models a missing,
`None` or non-dict metadata value; `distance = some d` models
`"_distance" in row`.  Distances (floats) are modelled as rationals. -/
structure RagRow where
  text : String
  metadata : Option MetaD := none
  distance : Option ℚ := none
deriving DecidableEq, Repr

/-- One entry of the `animal_images.json` configuration. -/
structure ImageCfg where
  thumbnail : Option String := none
  images : List String := []
  alt : Option String := none
deriving DecidableEq, Repr

/-- One element of the returned `sources` list (image fields present
only when the animal is configured). -/
structure SourceInfo where
  animal : String
  title : String
  url : String
  thumbnail : Option String := none
  image_urls : List String := []
  alt : Option String := none
deriving DecidableEq, Repr

/-- Build one source object from a row, as the loop body of
`search_context` does. -/
def mkSource (imgs : String → Option ImageCfg) (row : RagRow) : SourceInfo :=
  let md := row.metadata.getD {}
  let animal := md.animal_name.getD "Unknown"
  let title := md.title.getD ""
  let url := md.url.getD ""
  match imgs animal with
  | some cfg => ⟨animal, title, url, cfg.thumbnail, cfg.images, cfg.alt⟩
  | none => ⟨animal, title, url, none, [], none⟩

/-- One context block `f"[About: {animal_name}]\n{row['text']}"`. -/
def rowContext (row : RagRow) : String :=
  "[About: " ++ (row.metadata.getD {}).animal_name.getD "Unknown" ++ "]\n" ++ row.text

/-- `RAGService.search_context`: build sources and context blocks from
the rows, average the available distance scores (1.0 when there are
none), and clamp `1 − avg` into `[0, 1]` as the confidence. -/
def search_context (imgs : String → Option ImageCfg) (rows : List RagRow) :
    String × List SourceInfo × ℚ :=
  let sources := rows.map (mkSource imgs)
  let contexts := rows.map rowContext
  let distances := rows.filterMap (·.distance)
  let avg : ℚ := if distances.isEmpty then 1 else distances.sum / (distances.length : ℚ)
  let confidence := max 0 (min 1 (1 - avg))
  (String.intercalate "\n\n---\n\n" contexts, sources, confidence)

/-- The spec's end-to-end example: three rows with distances
`[0.1, 0.2, 0.3]`. -/
def c8Rows : List RagRow :=
  [⟨"Lions eat meat.", some ⟨some "Lion", some "Lion facts", some "u1"⟩, some (1/10)⟩,
   ⟨"Lions hunt in prides.", some ⟨some "Lion", some "Lion facts", some "u2"⟩, some (2/10)⟩,
   ⟨"Lions sleep a lot.", some ⟨some "Lion", some "Lion facts", some "u3"⟩, some (3/10)⟩]

/-- C8: the retriever's confidence is `clamp(1 − mean(distances), 0, 1)`
over the distance scores of the returned rows; on the spec's
three-result example with distances `[0.1, 0.2, 0.3]` it equals `0.8`;
and a retrieval with zero rows yields confidence `0`, an empty context
string and no sources, with no error. -/
theorem C8_confidence (imgs : String → Option ImageCfg) (rows : List RagRow) :
    (rows.filterMap (·.distance) ≠ [] →
      (search_context imgs rows).2.2 =
        max 0 (min 1 (1 - (rows.filterMap (·.distance)).sum /
          ((rows.filterMap (·.distance)).length : ℚ)))) ∧
    (search_context imgs c8Rows).2.2 = 4/5 ∧
    search_context imgs [] = ("", [], 0) := by
  refine ⟨?_, ?_, ?_⟩
  · intro h
    rw [search_context]
    simp [List.isEmpty_iff, h]
  · rw [search_context]
    norm_num [c8Rows, List.filterMap]
  · rw [search_context]
    norm_num [String.intercalate]

theorem C8_confidence_witness :
    (search_context (fun _ => none) c8Rows).2.2 =
      max 0 (min 1 (1 - (c8Rows.filterMap (·.distance)).sum /
        ((c8Rows.filterMap (·.distance)).length : ℚ))) :=
  (C8_confidence (fun _ => none) c8Rows).1 (by decide)

/-! ## Follow-up question extraction (`services/rag.py`) -/

/-- `FALLBACK_FOLLOWUP_QUESTIONS`: the fixed rotating pool of 30
kid-friendly questions. -/
def FALLBACK_FOLLOWUP_QUESTIONS : List String :=
  ["What do lions like to eat?",
   "How fast can a cheetah run?",
   "Why do zebras have stripes?",
   "What sounds do elephants make?",
   "How long do giraffes sleep?",
   "What do monkeys eat for breakfast?",
   "Can camels really store water in their humps?",
   "Why do flamingos stand on one leg?",
   "How do penguins stay warm?",
   "What's the biggest animal at the zoo?",
   "Do snakes have bones?",
   "Why do owls come out at night?",
   "How do chameleons change color?",
   "What do baby animals eat?",
   "Can parrots really talk?",
   "How strong is a gorilla?",
   "What do tortoises eat?",
   "Why do peacocks have colorful feathers?",
   "How do animals stay cool in summer?",
   "What's the fastest bird?",
   "Do all bears hibernate?",
   "How do kangaroos carry their babies?",
   "What do lemurs like to do for fun?",
   "Why do wolves howl at the moon?",
   "How do otters sleep in the water?",
   "What's special about a tiger's stripes?",
   "Do hippos really swim?",
   "What do porcupines eat?",
   "How do meerkats warn each other of danger?",
   "What animals can you pet at Leesburg Animal Park?"]

/-- `get_fallback_questions`: take `count` questions starting at the
process-wide rotation index, advancing it modulo the pool size after
each one; returns the questions and the new index. -/
def get_fallback_questions : Nat → Nat → List String × Nat
  | 0, idx => ([], idx)
  | n + 1, idx =>
    let q := FALLBACK_FOLLOWUP_QUESTIONS.getD idx ""
    let r := get_fallback_questions n ((idx + 1) % FALLBACK_FOLLOWUP_QUESTIONS.length)
    (q :: r.1, r.2)

/-- Leftmost match of `seq pre grp` where `grp` is the trailing capture
group: scan start positions left to right and return
`(text before the match, text matched by the group)` of the first
(Python-preferred) match.  `acc` is the reversed scanned prefix. -/
def splitSearchGo (pre grp : RE) :
    List Char → Option Char → List Char → Option (List Char × List Char)
  | acc, prev, l =>
    match (matchesFrom pre prev l).flatMap (fun c =>
        (matchesFrom grp c.1 c.2.1).map (fun d => (c.2.1, d.2.1))) with
    | (g, rest) :: _ => some (acc.reverse, g.take (g.length - rest.length))
    | [] =>
      match l with
      | [] => none
      | c :: cs => splitSearchGo pre grp (c :: acc) (some c) cs

def splitSearch (pre grp : RE) (l : List Char) : Option (List Char × List Char) :=
  splitSearchGo pre grp [] none l

/-- One numbered question line, `\d+\.\s+.+(?:\n|$)`. -/
def questionLineRE : RE :=
  catR [.plusCls isDigitChar, .lit ['.'], .plusCls isPySpace, .plusCls isDotChar,
    .alt (.lit ['\n']) .eoi]

/-- The capture group `((?:\d+\.\s+.+(?:\n|$))+)` shared by all three
patterns. -/
def followupGroupRE : RE := .plus questionLineRE

/-- Pattern 1 head: `\*\*Want to explore more\?[^*]*\*\*\s*\n?`
(searched with `re.IGNORECASE`). -/
def followupPre1 : RE :=
  catR [.litCI "**Want to explore more?".toList, .starCls (fun c => c != '*'),
    .lit "**".toList, .starCls isPySpace, .opt (.cls (fun c => c == '\n'))]

/-- Pattern 2 head: `Want to explore more\?[^\n]*\n`. -/
def followupPre2 : RE :=
  catR [.litCI "Want to explore more?".toList, .starCls (fun c => c != '\n'),
    .cls (fun c => c == '\n')]

/-- Pattern 3 head: `(?:explore more|questions to ask)[^\n]*\n`. -/
def followupPre3 : RE :=
  catR [altAll [.litCI "explore more".toList, .litCI "questions to ask".toList],
    .starCls (fun c => c != '\n'), .cls (fun c => c == '\n')]

/-- The three tolerant patterns of `extract_followup_questions`, tried
in order; each is head followed by the trailing capture group. -/
def FOLLOWUP_PATTERNS : List (RE × RE) :=
  [(followupPre1, followupGroupRE), (followupPre2, followupGroupRE),
   (followupPre3, followupGroupRE)]

/-- Leftmost match of `pre (cap) post` where `cap` is the single capture
group (`re.findall`'s per-match value): returns the captured text and
the rest after the whole match. -/
def matchCapture (pre cap post : RE) (prev : Option Char) (l : List Char) :
    Option (List Char × List Char) :=
  match (matchesFrom pre prev l).flatMap (fun c1 =>
      (matchesFrom cap c1.1 c1.2.1).flatMap (fun c2 =>
        (matchesFrom post c2.1 c2.2.1).map (fun c3 =>
          (c1.2.1.take (c1.2.1.length - c2.2.1.length), c3.2.1)))) with
  | r :: _ => some r
  | [] => none

/-- Head of the question parser `\d+\.\s+`. -/
def qNumRE : RE := catR [.plusCls isDigitChar, .lit ['.'], .plusCls isPySpace]

/-- The lazy capture `(.+?)`. -/
def qCapRE : RE := .plusClsL isDotChar

/-- The trailing `(?:\n|$)`. -/
def qPostRE : RE := .alt (.lit ['\n']) .eoi

/-- `re.findall(r'\d+\.\s+(.+?)(?:\n|$)', text)`: successive
non-overlapping leftmost matches; every match consumes at least one
character, so `l.length + 1` fuel steps always suffice (the fuel also
drops on each one-character scan advance). -/
def findAllQGo : Nat → List Char → List (List Char)
  | 0, _ => []
  | fuel + 1, l =>
    match matchCapture qNumRE qCapRE qPostRE none l with
    | some (cap, rest) => cap :: findAllQGo fuel rest
    | none =>
      match l with
      | [] => []
      | _ :: cs => findAllQGo fuel cs

def findAllQ (l : List Char) : List (List Char) := findAllQGo (l.length + 1) l

/-- Python `q.rstrip('?')`. -/
def rstripQM (l : List Char) : List Char :=
  (l.reverse.dropWhile (fun c => c == '?')).reverse

/-- The pattern loop of `extract_followup_questions`: the first pattern
that matches *and* yields a non-empty parsed question list wins,
returning the stripped text before the match and the normalized
questions (`q.strip().rstrip('?') + '?'`, empty strips dropped). -/
def tryPatterns : List (RE × RE) → List Char → Option (List Char × List String)
  | [], _ => none
  | (pre, grp) :: ps, response =>
    match splitSearch pre grp response with
    | some (before, g1) =>
      let qs := (findAllQ g1).filterMap (fun q =>
        if (pyStrip q).isEmpty then none
        else some (String.mk (rstripQM (pyStrip q) ++ ['?'])))
      if !qs.isEmpty then some (pyStrip before, qs)
      else tryPatterns ps response
    | none => tryPatterns ps response

/-- `RAGService.extract_followup_questions`, with the module-level
rotation index `_fallback_question_index` passed and returned
explicitly: on extraction success the index is untouched; on failure the
full response is returned unchanged together with 3 questions drawn from
the rotating pool. -/
def extract_followup_questions (response : List Char) (idx : Nat) :
    (List Char × List String) × Nat :=
  match tryPatterns FOLLOWUP_PATTERNS response with
  | some r => (r, idx)
  | none =>
    let f := get_fallback_questions 3 idx
    ((response, f.1), f.2)

/-- No extraction pattern matches the response at all. -/
def noFollowupMatch (response : List Char) : Bool :=
  FOLLOWUP_PATTERNS.all (fun p => (splitSearch p.1 p.2 response).isNone)

theorem pool_length : FALLBACK_FOLLOWUP_QUESTIONS.length = 30 := rfl

theorem pool_getD_mem : ∀ i : Fin 30,
    FALLBACK_FOLLOWUP_QUESTIONS.getD i.val "" ∈ FALLBACK_FOLLOWUP_QUESTIONS := by
  decide

theorem pool_shift3_ne : ∀ i : Fin 30,
    FALLBACK_FOLLOWUP_QUESTIONS.getD i.val "" ≠
      FALLBACK_FOLLOWUP_QUESTIONS.getD ((i.val + 3) % 30) "" := by
  decide

theorem tryPatterns_of_noMatch (response : List Char)
    (hnm : noFollowupMatch response = true) :
    tryPatterns FOLLOWUP_PATTERNS response = none := by
  rw [noFollowupMatch, FOLLOWUP_PATTERNS] at hnm
  simp only [List.all_cons, List.all_nil, Bool.and_true, Bool.and_eq_true,
    Option.isNone_iff_eq_none] at hnm
  obtain ⟨h1, h2, h3⟩ := hnm
  rw [FOLLOWUP_PATTERNS, tryPatterns, h1, tryPatterns, h2, tryPatterns, h3,
    tryPatterns]

theorem get_fallback_three (idx : Nat) :
    get_fallback_questions 3 idx =
      ([FALLBACK_FOLLOWUP_QUESTIONS.getD idx "",
        FALLBACK_FOLLOWUP_QUESTIONS.getD ((idx + 1) % 30) "",
        FALLBACK_FOLLOWUP_QUESTIONS.getD ((idx + 2) % 30) ""],
       (idx + 3) % 30) := by
  have e1 : ((idx + 1) % 30 + 1) % 30 = (idx + 2) % 30 := by omega
  have e2 : (((idx + 1) % 30 + 1) % 30 + 1) % 30 = (idx + 3) % 30 := by omega
  have e3 : ((idx + 2) % 30 + 1) % 30 = (idx + 3) % 30 := by omega
  show get_fallback_questions (2 + 1) idx = _
  rw [get_fallback_questions]
  show (_ :: (get_fallback_questions (1 + 1) _).1, _) = _
  rw [get_fallback_questions]
  show (_ :: _ :: (get_fallback_questions (0 + 1) _).1, _) = _
  rw [get_fallback_questions, get_fallback_questions]
  simp only [pool_length, e1, e2, e3]

/-- C9: whenever no follow-up extraction pattern matches the response,
`extract_followup_questions` returns the full response unchanged
together with exactly the next 3 questions of the fixed rotating
fallback pool (advancing the process-wide rotation index by 3, wrapping
at the pool size 30), every returned question belongs to the pool, and a
second consecutive extraction failure never returns the identical list
of 3 questions. -/
theorem C9_fallback_rotation (response : List Char) (idx : Nat)
    (hidx : idx < 30) (hnm : noFollowupMatch response = true) :
    extract_followup_questions response idx =
      ((response,
        [FALLBACK_FOLLOWUP_QUESTIONS.getD idx "",
         FALLBACK_FOLLOWUP_QUESTIONS.getD ((idx + 1) % 30) "",
         FALLBACK_FOLLOWUP_QUESTIONS.getD ((idx + 2) % 30) ""]),
       (idx + 3) % 30) ∧
    (extract_followup_questions response idx).1.2.length = 3 ∧
    (∀ q ∈ (extract_followup_questions response idx).1.2,
      q ∈ FALLBACK_FOLLOWUP_QUESTIONS) ∧
    (extract_followup_questions response
        (extract_followup_questions response idx).2).1.2 ≠
      (extract_followup_questions response idx).1.2 := by
  have hn := tryPatterns_of_noMatch response hnm
  have he : ∀ j, extract_followup_questions response j =
      ((response, (get_fallback_questions 3 j).1), (get_fallback_questions 3 j).2) := by
    intro j
    rw [extract_followup_questions, hn]
  have h1 : extract_followup_questions response idx =
      ((response,
        [FALLBACK_FOLLOWUP_QUESTIONS.getD idx "",
         FALLBACK_FOLLOWUP_QUESTIONS.getD ((idx + 1) % 30) "",
         FALLBACK_FOLLOWUP_QUESTIONS.getD ((idx + 2) % 30) ""]),
       (idx + 3) % 30) := by
    rw [he idx, get_fallback_three idx]
  have hidx2 : (idx + 3) % 30 < 30 := Nat.mod_lt _ (by omega)
  have h2 : extract_followup_questions response ((idx + 3) % 30) =
      ((response,
        [FALLBACK_FOLLOWUP_QUESTIONS.getD ((idx + 3) % 30) "",
         FALLBACK_FOLLOWUP_QUESTIONS.getD (((idx + 3) % 30 + 1) % 30) "",
         FALLBACK_FOLLOWUP_QUESTIONS.getD (((idx + 3) % 30 + 2) % 30) ""]),
       ((idx + 3) % 30 + 3) % 30) := by
    rw [he ((idx + 3) % 30), get_fallback_three ((idx + 3) % 30)]
  refine ⟨h1, by rw [h1]; rfl, ?_, ?_⟩
  · rw [h1]
    intro q hq
    simp only [List.mem_cons, List.not_mem_nil, or_false] at hq
    rcases hq with h | h | h
    · exact h ▸ pool_getD_mem ⟨idx, hidx⟩
    · exact h ▸ pool_getD_mem ⟨(idx + 1) % 30, Nat.mod_lt _ (by omega)⟩
    · exact h ▸ pool_getD_mem ⟨(idx + 2) % 30, Nat.mod_lt _ (by omega)⟩
  · have hne : FALLBACK_FOLLOWUP_QUESTIONS.getD idx "" ≠
        FALLBACK_FOLLOWUP_QUESTIONS.getD ((idx + 3) % 30) "" :=
      pool_shift3_ne ⟨idx, hidx⟩
    rw [h1]
    dsimp only
    rw [h2]
    dsimp only
    intro hcontra
    simp only [List.cons.injEq] at hcontra
    exact hne hcontra.1.symm

/-- The C9 witness response: no follow-up pattern matches it. -/
def c9Response : List Char := "Lions are fast.".toList

theorem C9_fallback_rotation_witness :
    extract_followup_questions c9Response 0 =
      ((c9Response,
        [FALLBACK_FOLLOWUP_QUESTIONS.getD 0 "",
         FALLBACK_FOLLOWUP_QUESTIONS.getD ((0 + 1) % 30) "",
         FALLBACK_FOLLOWUP_QUESTIONS.getD ((0 + 2) % 30) ""]),
       (0 + 3) % 30) ∧
    (extract_followup_questions c9Response 0).1.2.length = 3 ∧
    (∀ q ∈ (extract_followup_questions c9Response 0).1.2,
      q ∈ FALLBACK_FOLLOWUP_QUESTIONS) ∧
    (extract_followup_questions c9Response
        (extract_followup_questions c9Response 0).2).1.2 ≠
      (extract_followup_questions c9Response 0).1.2 :=
  C9_fallback_rotation c9Response 0 (by decide) (by decide)

end Zoo
